import Mathlib

/-!
Verification of the in-memory knowledge-graph / RAG component (`src/App.jsx`).

The JavaScript source is shallowly embedded:
* JSON numbers are modelled as rationals (`ℚ`); the similarity values produced
  by `cosineSim` live in `ℝ` because the code takes a square root.
* JavaScript objects used as string-keyed maps (`nodesMap`, `embeddingsRef`)
  are modelled as association lists whose keys stay in insertion order, with
  `objInsert` reproducing `obj[k] = v` (replace in place, or append).
* A record literal built by spreads, `{ ...existing, id, ...attrs }`, is
  modelled as an association list in which the EARLIER entry wins on lookup,
  so the later-wins JavaScript spread becomes `attrs ++ ("id", _) :: existing`.
* The asynchronous providers `getEmbedding` / `gptPlainText` are injected
  functions returning `Except String _`; a thrown provider error is the
  `.error` case.  `searchGraph` / `submitRagQuery` additionally return the
  trace of provider invocations (`CallEv`) they perform.
* React state (`useState`/`useRef`) is gathered in `GraphState`; each setter
  is a field update.  The question text box (`ragQuery`) is passed as an
  argument, matching the value read at submit time.
-/

namespace EnergyGraph

/-! ### Vector math (`dot`, `norm`, `cosineSim`, App.jsx lines 59-77) -/

/-- Vectors are finite sequences of (rational) numbers. -/
abbrev Vec := List ℚ

/-- `dot(a, b)`: sum of element-wise products over the shared prefix
(`Math.min(a.length, b.length)` in the source is the `zipWith` truncation). -/
def dot (a b : Vec) : ℚ :=
  (List.zipWith (fun x y => x * y) a b).sum

/-- The sum of squares accumulated by the loop inside `norm`. -/
def normSq (a : Vec) : ℚ :=
  (a.map (fun x => x * x)).sum

/-- `norm(a) = Math.sqrt(s)` with `s` the sum of squares. -/
noncomputable def norm (a : Vec) : ℝ :=
  Real.sqrt ((normSq a : ℚ) : ℝ)

/-- `cosineSim(a, b)`: `0` when either norm is falsy (i.e. `0`), otherwise
`dot(a, b) / (norm(a) * norm(b))`. -/
noncomputable def cosineSim (a b : Vec) : ℝ :=
  if norm a = 0 ∨ norm b = 0 then 0
  else ((dot a b : ℚ) : ℝ) / (norm a * norm b)

/-! ### Attribute values and records -/

/-- A JSON-like attribute value stored in a node record.  (Ingestion only ever
stores strings and numbers; `null` is included for completeness of the JSON
model.) -/
inductive Val where
  | str (s : String) : Val
  | num (q : ℚ) : Val
  | null : Val
deriving DecidableEq, Repr

/-- A node record: an association list of attributes in which the EARLIEST
entry for a key wins on lookup (see the header comment: this encodes the
later-wins JavaScript object spread). -/
abbrev Obj := List (String × Val)

/-- Generic lookup in a string-keyed association list (first match wins). -/
def lookupKey {β : Type} (m : List (String × β)) (k : String) : Option β :=
  (m.find? (fun p => p.1 == k)).map (fun p => p.2)

/-- Attribute access `record[k]`; `none` models `undefined`. -/
def getAttr (o : Obj) (k : String) : Option Val :=
  lookupKey o k

/-- `obj[k] = v` on a JavaScript object: replace in place if the key exists
(key order preserved), otherwise append the new key at the end. -/
def objInsert {β : Type} : List (String × β) → String → β → List (String × β)
  | [], k, v => [(k, v)]
  | p :: ps, k, v => if p.1 = k then (k, v) :: ps else p :: objInsert ps k v

/-- A directed labeled relationship, `{ source, target, relation }`. -/
structure Edge where
  source : String
  target : String
  relation : String
deriving DecidableEq, Repr

/-- A RAG context entry `{ ...node, similarity }` produced by `searchGraph`. -/
structure Ctx where
  node : Obj
  similarity : ℝ

/-- The React state owned by the component: the graph store, the embedding
index, and the derived selection / answer state cleared by `resetGraph`. -/
structure GraphState where
  nodesMap : List (String × Obj)
  edges : List Edge
  embeddings : List (String × Vec)
  selectedNodeId : Option String
  selectedNodeSummary : String
  ragAnswer : String
  ragContexts : List Ctx

/-- The initial state (`useState({})`, `useState([])`, ...). -/
def emptyGraphState : GraphState :=
  ⟨[], [], [], none, "", "", []⟩

/-- The merged record `{ ...existing, id, ...attrs }` (earlier entry wins in
this encoding, so the spread order is reversed). -/
def upsertRecord (existing : Obj) (id : String) (attrs : Obj) : Obj :=
  attrs ++ ("id", Val.str id) :: existing

/-- `addNode(id, attrs, embedding)` (App.jsx lines 157-166): merge the
attributes into the existing record for `id` (creating it if absent) and,
when an embedding is supplied, store it in the embedding index. -/
def addNode (st : GraphState) (id : String) (attrs : Obj) (embedding : Option Vec) :
    GraphState :=
  let existing := (lookupKey st.nodesMap id).getD []
  let updated := upsertRecord existing id attrs
  { st with
    nodesMap := objInsert st.nodesMap id updated
    embeddings :=
      match embedding with
      | some v => objInsert st.embeddings id v
      | none => st.embeddings }

/-- `addEdge(source, target, relation)`: append to the relationship list. -/
def addEdge (st : GraphState) (source target relation : String) : GraphState :=
  { st with edges := st.edges ++ [⟨source, target, relation⟩] }

/-- `resetGraph()` (App.jsx lines 172-180): clear the entity map, the edge
list, the embedding index and all derived selection / answer state. -/
def resetGraph (st : GraphState) : GraphState :=
  { st with
    nodesMap := []
    edges := []
    embeddings := []
    selectedNodeId := none
    selectedNodeSummary := ""
    ragAnswer := ""
    ragContexts := [] }

/-! ### Metric engine (`metrics`, App.jsx lines 308-328) -/

/-- One step of the degree accumulation: `if (deg[k] != null) deg[k] += 1`.
The key check is membership in the id list that initialised the map. -/
def bump (ids : List String) (d : String → ℕ) (k : String) : String → ℕ :=
  if k ∈ ids then (fun x => if x = k then d x + 1 else d x) else d

/-- The degree map after folding every edge: each edge bumps its source and
its target (when those ids are keys of the map). -/
def degAfter (ids : List String) (edges : List Edge) : String → ℕ :=
  edges.foldl (fun d e => bump ids (bump ids d e.source) e.target) (fun _ => 0)

/-- The specification-side count: the number of relationships in which `id`
appears as source or target, a self-loop contributing twice. -/
def relCount (edges : List Edge) (id : String) : ℕ :=
  (edges.map (fun e =>
    (if e.source = id then 1 else 0) + (if e.target = id then 1 else 0))).sum

/-- `node.type === "Event" ? node.severity ?? 0.5 : 0.3`.  (A non-numeric
severity value never occurs: ingestion always stores a numeric severity.) -/
def baseRiskOf (node : Obj) : ℚ :=
  if getAttr node "type" = some (Val.str "Event") then
    match getAttr node "severity" with
    | some (Val.num q) => q
    | _ => 1 / 2
  else 3 / 10

/-- One row of the derived metric snapshot. -/
structure MetricEntry where
  degree_centrality : ℚ
  risk_score : ℚ
deriving DecidableEq, Repr

/-- The metric snapshot: for each entity id, degree centrality
`deg[id] / Math.max(ids.length - 1, 1)` and the blended risk score
`0.5 * baseRisk + 0.5 * degreeC`. -/
def metricsOf (nm : List (String × Obj)) (edges : List Edge) :
    List (String × MetricEntry) :=
  let ids := nm.map (fun p => p.1)
  let d := degAfter ids edges
  let n : ℚ := max ((ids.length : ℚ) - 1) 1
  ids.map (fun id =>
    let node := (lookupKey nm id).getD []
    let degreeC : ℚ := (d id : ℚ) / n
    (id, ⟨degreeC, 1 / 2 * baseRiskOf node + 1 / 2 * degreeC⟩))

/-! ### Ingestion pipeline (`ingestAll`, App.jsx lines 184-304) -/

/-- A validated paper record `{ id, title, summary, published }`. -/
structure Paper where
  id : String
  title : String
  summary : String
  published : String
deriving DecidableEq, Repr

/-- A validated grid-event record.  The empty string models a missing (falsy)
`region` / `asset_type`; `none` models a missing (`undefined`/`null`)
`severity`. -/
structure Event where
  external_id : String
  name : String
  description : String
  start_time : String
  end_time : String
  region : String
  asset_type : String
  severity : Option ℚ
deriving DecidableEq, Repr

/-- A validated policy record; the empty string models a missing (falsy)
`jurisdiction`. -/
structure Policy where
  external_id : String
  name : String
  description : String
  jurisdiction : String
  start_date : String
  end_date : String
  category : String
deriving DecidableEq, Repr

/-- `a || b` on strings: the JavaScript falsy fallback. -/
def orFalsy (a b : String) : String :=
  if a = "" then b else a

/-- Canonical embedding text of a paper. -/
def paperText (p : Paper) : String :=
  p.title ++ " - " ++ p.summary

/-- Canonical embedding text of an event. -/
def eventText (e : Event) : String :=
  e.name ++ ". " ++ e.description ++ ". Region: " ++ orFalsy e.region "unknown"
    ++ ". Asset: " ++ orFalsy e.asset_type "unknown" ++ "."

/-- Canonical embedding text of a policy. -/
def policyText (p : Policy) : String :=
  p.name ++ ". " ++ p.description ++ ". Jurisdiction: "
    ++ orFalsy p.jurisdiction "unknown" ++ "."

/-- Graph mutations applied for one paper once its embedding is available. -/
def applyPaper (st : GraphState) (p : Paper) (v : Vec) : GraphState :=
  addNode st ("paper:" ++ p.id)
    [("type", Val.str "Paper"), ("title", Val.str p.title),
     ("summary", Val.str p.summary), ("published", Val.str p.published)]
    (some v)

/-- Graph mutations applied for one event: the event node plus, when the
region is truthy, a location node and an `OCCURS_IN` relationship. -/
def applyEvent (st : GraphState) (e : Event) (v : Vec) : GraphState :=
  let nodeId := "event:" ++ e.external_id
  let st1 := addNode st nodeId
    [("type", Val.str "Event"), ("title", Val.str e.name),
     ("summary", Val.str e.description), ("start_time", Val.str e.start_time),
     ("end_time", Val.str e.end_time), ("region", Val.str e.region),
     ("asset_type", Val.str e.asset_type),
     ("severity", Val.num ((e.severity).getD (1 / 2)))]
    (some v)
  if e.region = "" then st1
  else
    let locId := "location:" ++ e.region
    let st2 := addNode st1 locId
      [("type", Val.str "Location"), ("name", Val.str e.region)] none
    addEdge st2 nodeId locId "OCCURS_IN"

/-- Graph mutations applied for one policy: the policy node plus, when the
jurisdiction is truthy, a location node and an `APPLIES_TO` relationship. -/
def applyPolicy (st : GraphState) (p : Policy) (v : Vec) : GraphState :=
  let nodeId := "policy:" ++ p.external_id
  let st1 := addNode st nodeId
    [("type", Val.str "Policy"), ("title", Val.str p.name),
     ("summary", Val.str p.description), ("jurisdiction", Val.str p.jurisdiction),
     ("start_date", Val.str p.start_date), ("end_date", Val.str p.end_date),
     ("category", Val.str p.category)]
    (some v)
  if p.jurisdiction = "" then st1
  else
    let locId := "location:" ++ p.jurisdiction
    let st2 := addNode st1 locId
      [("type", Val.str "Location"), ("name", Val.str p.jurisdiction)] none
    addEdge st2 nodeId locId "APPLIES_TO"

/-- One ingestion loop: each record's text is sent to the injected embedding
provider; the first `.error` stops the loop and is reported, with the state
reached so far left in place (the `try`/`catch` around `ingestAll`). -/
def processRecords {α : Type} (txt : α → String)
    (applyRec : GraphState → α → Vec → GraphState)
    (embed : String → Except String Vec) :
    GraphState → List α → GraphState × Option String
  | s, [] => (s, none)
  | s, r :: rs =>
    match embed (txt r) with
    | Except.error e => (s, some e)
    | Except.ok v => processRecords txt applyRec embed (applyRec s r v) rs

/-- Character-list prefix test (`p` begins `l`). -/
def leadsWith : List Char → List Char → Bool
  | [], _ => true
  | _ :: _, [] => false
  | p :: ps, c :: cs => p == c && leadsWith ps cs

/-- Character-list substring test. -/
def hasSeq (pat : List Char) : List Char → Bool
  | [] => pat.isEmpty
  | c :: cs => leadsWith pat (c :: cs) || hasSeq pat cs

/-- `s.includes(pat)`. -/
def containsSub (s pat : String) : Bool :=
  hasSeq pat.toList s.toList

/-- `s.toLowerCase()`: lower-case every character. -/
def lowerStr (s : String) : String :=
  String.mk (s.data.map Char.toLower)

/-- `s.trim()`: strip leading and trailing whitespace. -/
def trimStr (s : String) : String :=
  String.mk (((s.data.dropWhile Char.isWhitespace).reverse.dropWhile
    Char.isWhitespace).reverse)

/-- The keyword-based `MENTIONS_EVENT` derivation (App.jsx lines 287-297):
for every paper/event pair, link them when the lower-cased title contains
"blackout" and the lower-cased description contains "outage". -/
def deriveLinks (st : GraphState) (papers : List Paper) (events : List Event) :
    GraphState :=
  papers.foldl (fun s p =>
    events.foldl (fun s2 e =>
      if containsSub (lowerStr p.title) "blackout"
          && containsSub (lowerStr e.description) "outage" then
        addEdge s2 ("paper:" ++ p.id) ("event:" ++ e.external_id) "MENTIONS_EVENT"
      else s2) s) st

/-- `ingestAll()` on already-parsed records: reset the whole store, then
ingest papers, events and policies in order, then derive keyword links.
The second component is the reported error; on error the partial state is
returned unchanged (fail-fast, no rollback). -/
def ingestAll (st : GraphState) (papers : List Paper) (events : List Event)
    (policies : List Policy) (embed : String → Except String Vec) :
    GraphState × Option String :=
  let s0 := resetGraph st
  match processRecords paperText applyPaper embed s0 papers with
  | (s1, some e) => (s1, some e)
  | (s1, none) =>
    match processRecords eventText applyEvent embed s1 events with
    | (s2, some e) => (s2, some e)
    | (s2, none) =>
      match processRecords policyText applyPolicy embed s2 policies with
      | (s3, some e) => (s3, some e)
      | (s3, none) => (deriveLinks s3 papers events, none)

/-! ### RAG orchestration (`searchGraph` / `submitRagQuery`, lines 425-486) -/

/-- A provider invocation performed by the RAG path. -/
inductive CallEv where
  | embedCall (text : String) : CallEv
  | generateCall (prompt : String) : CallEv
deriving DecidableEq, Repr

/-- Whether an invocation hit the embedding provider. -/
def CallEv.isEmbed : CallEv → Bool
  | .embedCall _ => true
  | _ => false

/-- Whether an invocation hit the text-generation provider. -/
def CallEv.isGenerate : CallEv → Bool
  | .generateCall _ => true
  | _ => false

/-- The `(id, score)` list scored against a query embedding. -/
noncomputable def scoredOf (st : GraphState) (q : Vec) : List (String × ℝ) :=
  st.embeddings.map (fun p => (p.1, cosineSim q p.2))

/-- The comparator `(a, b) => b.score - a.score`: `a` may precede `b` when
`a`'s score is at least `b`'s. -/
def scoreRel (a b : String × ℝ) : Prop :=
  b.2 ≤ a.2

noncomputable instance : DecidableRel scoreRel :=
  fun a b => inferInstanceAs (Decidable (b.2 ≤ a.2))

instance : IsTotal (String × ℝ) scoreRel :=
  ⟨fun a b => le_total b.2 a.2⟩

instance : IsTrans (String × ℝ) scoreRel :=
  ⟨fun _ _ _ h1 h2 => le_trans h2 h1⟩

/-- `scored.sort((a, b) => b.score - a.score)`: a stable descending sort
(ECMAScript sorts are stable, so any stable sort gives the same list;
insertion sort is used here). -/
noncomputable def sortScoredDesc (l : List (String × ℝ)) : List (String × ℝ) :=
  l.insertionSort scoreRel

/-- `searchGraph(query, topK)` (lines 425-441): empty index short-circuits to
an empty result with no provider call; otherwise the query is embedded, every
stored vector is scored, the scored list is stably sorted descending, the
first `topK` entries are kept, and ids that no longer resolve in `nodesMap`
are dropped. -/
noncomputable def searchGraph (st : GraphState) (query : String) (k : ℕ)
    (embed : String → Except String Vec) :
    Except String (List Ctx) × List CallEv :=
  if st.embeddings.isEmpty then (Except.ok [], [])
  else
    match embed query with
    | Except.error e => (Except.error e, [CallEv.embedCall query])
    | Except.ok q =>
      let top := (sortScoredDesc (scoredOf st q)).take k
      (Except.ok (top.filterMap (fun s =>
        (lookupKey st.nodesMap s.1).map (fun n => ⟨n, s.2⟩))),
       [CallEv.embedCall query])

/-- Template interpolation of a possibly-undefined attribute
(`undefined` prints as "undefined"). -/
def valText : Option Val → String
  | none => "undefined"
  | some (Val.str s) => s
  | some (Val.num q) => toString q
  | some Val.null => "null"

/-- An attribute read inside a `||` fallback chain: a missing or non-string
value is falsy / empty here (only string fields feed these chains). -/
def attrFalsy (o : Obj) (k : String) : String :=
  match getAttr o k with
  | some (Val.str s) => s
  | _ => ""

/-- One line of the serialized context block. -/
def ctxLine (c : Ctx) : String :=
  "[" ++ valText (getAttr c.node "id") ++ "] type=" ++ valText (getAttr c.node "type")
    ++ ", title=" ++ valText (getAttr c.node "title")
    ++ ", time=" ++ orFalsy (attrFalsy c.node "start_time")
        (orFalsy (attrFalsy c.node "published") (attrFalsy c.node "start_date"))
    ++ ", region=" ++ orFalsy (attrFalsy c.node "region") (attrFalsy c.node "jurisdiction")
    ++ ", summary=" ++ valText (getAttr c.node "summary")

/-- The single prompt combining the question and the context block. -/
def ragPrompt (query : String) (contexts : List Ctx) : String :=
  "User question:\n" ++ query ++ "\n\nRelevant graph context (nodes and events):\n"
    ++ String.intercalate "\n" (contexts.map ctxLine)
    ++ "\n\nUsing only this context and your own energy-domain knowledge, do the following: "
    ++ "1. Give a concise answer (3-6 sentences). "
    ++ "2. Describe which nodes are high-risk and why, focusing on outages, cascading risks, and policy gaps. "
    ++ "3. Describe the rough timeline of key events in simple language. "
    ++ "Keep the answer in plain text paragraphs, no bullet points, no markdown."

/-- `submitRagQuery()` (lines 443-486) on the question `query`: an untrimmed
blank question returns immediately; otherwise the answer and context state
are cleared, `searchGraph` retrieves the contexts, the prompt is built and
the generation provider is invoked; a provider failure anywhere is caught and
reported as the fallback answer text.  The second component is the provider
invocation trace. -/
noncomputable def submitRagQuery (st : GraphState) (query : String)
    (embed : String → Except String Vec)
    (generate : String → Except String String) : GraphState × List CallEv :=
  if trimStr query = "" then (st, [])
  else
    let st1 := { st with ragAnswer := "", ragContexts := [] }
    match searchGraph st1 query 8 embed with
    | (Except.error _, tr) =>
      ({ st1 with ragAnswer := "Failed to run RAG over the graph." }, tr)
    | (Except.ok contexts, tr) =>
      let prompt := ragPrompt query contexts
      match generate prompt with
      | Except.error _ =>
        ({ st1 with ragAnswer := "Failed to run RAG over the graph." },
         tr ++ [CallEv.generateCall prompt])
      | Except.ok text =>
        ({ st1 with ragAnswer := text, ragContexts := contexts },
         tr ++ [CallEv.generateCall prompt])

/-! ### Concrete inputs used by witnesses and counterexamples -/

/-- A paper whose title carries the "blackout" marker. -/
def cPaper : Paper := ⟨"p1", "blackout", "s", "2021-01-01"⟩

/-- An event whose description carries the "outage" marker, in region "X". -/
def cEvent : Event := ⟨"e1", "n", "outage", "t0", "t1", "X", "a", some (9 / 10)⟩

/-- A policy with jurisdiction "J". -/
def cPolicy : Policy := ⟨"q1", "pn", "pd", "J", "d0", "d1", "c"⟩

/-- An embedding provider that always succeeds with `[1]`. -/
def embOk1 : String → Except String Vec := fun _ => Except.ok [1]

/-- A second, different always-succeeding embedding provider. -/
def embOk2 : String → Except String Vec := fun _ => Except.ok [2, 3]

/-- A provider that fails exactly on the canonical text of `cEvent`. -/
def embFailEvent : String → Except String Vec :=
  fun t => if t = eventText cEvent then Except.error "boom" else Except.ok [1]

/-- A provider that always fails. -/
def embNever : String → Except String Vec := fun _ => Except.error "no embed"

/-- A generation provider that always succeeds. -/
def genOk : String → Except String String := fun _ => Except.ok "answer"

/-- Two plain nodes joined by a duplicated relationship. -/
def cNodesDup : List (String × Obj) :=
  [("a", [("type", Val.str "Paper")]), ("b", [("type", Val.str "Paper")])]

/-- The duplicated relationship list for `cNodesDup`. -/
def cEdgesDup : List Edge := [⟨"a", "b", "R"⟩, ⟨"a", "b", "R"⟩]

/-- The same two nodes joined by a single relationship. -/
def cEdgesSimple : List Edge := [⟨"a", "b", "R"⟩]

/-- A store holding a single entity. -/
def cNodesDangling : List (String × Obj) := [("a", [])]

/-- A relationship whose target is not an entity of the store. -/
def cEdgesDangling : List Edge := [⟨"a", "b", "R"⟩]

/-- Two nodes with a self-loop on "a" plus an ordinary relationship. -/
def cNodesLoop : List (String × Obj) := [("a", []), ("b", [])]

/-- The edge list with a self-loop for `cNodesLoop`. -/
def cEdgesLoop : List Edge := [⟨"a", "a", "L"⟩, ⟨"a", "b", "S"⟩]

/-- A store whose record at key "a" carries an `id` attribute different from
its key (constructible state; exercises the `id` injection of `addNode`). -/
def cState8 : GraphState :=
  { emptyGraphState with nodesMap := [("a", [("id", Val.str "b")])] }

/-! ## Theorems -/

/-! ### Vector math lemmas -/

theorem normSq_cons (a : ℚ) (as : Vec) : normSq (a :: as) = a * a + normSq as := by
  simp [normSq]

theorem dot_self (v : Vec) : dot v v = normSq v := by
  simp [dot, normSq, List.zipWith_same]

theorem normSq_nonneg (v : Vec) : 0 ≤ normSq v := by
  refine List.sum_nonneg ?_
  intro x hx
  obtain ⟨y, _, rfl⟩ := List.mem_map.mp hx
  exact mul_self_nonneg y

theorem normSq_pos (v : Vec) (h : ∃ x ∈ v, x ≠ 0) : 0 < normSq v := by
  obtain ⟨x, hx, hx0⟩ := h
  induction v with
  | nil => simp at hx
  | cons a as ih =>
    rw [normSq_cons]
    rcases List.mem_cons.mp hx with hax | hmem
    · subst hax
      exact add_pos_of_pos_of_nonneg (mul_self_pos.mpr hx0) (normSq_nonneg as)
    · exact add_pos_of_nonneg_of_pos (mul_self_nonneg a) (ih hmem)

theorem norm_pos_of_normSq_pos (v : Vec) (h : 0 < normSq v) : 0 < norm v := by
  rw [norm]
  exact Real.sqrt_pos.mpr (by exact_mod_cast h)

/-- C9: for every nonzero vector `v`, `cosineSim v v = 1`; and whenever either
argument has Euclidean norm `0` (in particular the zero vector), `cosineSim`
returns exactly `0` (no division by zero, no error). -/
theorem c9_cosine :
    (∀ v : Vec, (∃ x ∈ v, x ≠ 0) → cosineSim v v = 1) ∧
      (∀ a b : Vec, norm a = 0 ∨ norm b = 0 → cosineSim a b = 0) := by
  constructor
  · intro v h
    have hpos : 0 < normSq v := normSq_pos v h
    have hnorm : 0 < norm v := norm_pos_of_normSq_pos v hpos
    rw [cosineSim, if_neg (by simp [ne_of_gt hnorm]), dot_self, norm,
      Real.mul_self_sqrt (by exact_mod_cast normSq_nonneg v)]
    exact div_self (by exact_mod_cast hpos.ne')
  · intro a b h
    rw [cosineSim, if_pos h]

/-- C9 witness: `[1]` is a nonzero vector with self-similarity `1`, and the
zero vector `[0]` has similarity exactly `0` with `[5]`. -/
theorem c9_cosine_witness : cosineSim [1] [1] = 1 ∧ cosineSim [0] [5] = 0 := by
  constructor
  · exact c9_cosine.1 [1] ⟨1, by simp, by norm_num⟩
  · refine c9_cosine.2 [0] [5] (Or.inl ?_)
    have h0 : normSq [0] = 0 := by norm_num [normSq]
    rw [norm, h0]
    simp

/-! ### Graph store lemmas -/

theorem lookupKey_nil {β : Type} (k : String) : lookupKey ([] : List (String × β)) k = none :=
  rfl

theorem lookupKey_cons {β : Type} (p : String × β) (ps : List (String × β)) (k : String) :
    lookupKey (p :: ps) k = if p.1 = k then some p.2 else lookupKey ps k := by
  by_cases h : p.1 = k
  · rw [if_pos h, lookupKey, List.find?_cons_of_pos _ (by simpa using h)]
    rfl
  · rw [if_neg h, lookupKey, List.find?_cons_of_neg _ (by simpa using h)]
    rfl

theorem lookupKey_append {β : Type} (m1 m2 : List (String × β)) (k : String) :
    lookupKey (m1 ++ m2) k = Option.or (lookupKey m1 k) (lookupKey m2 k) := by
  induction m1 with
  | nil => simp [lookupKey_nil]
  | cons p ps ih =>
    rw [List.cons_append, lookupKey_cons, lookupKey_cons]
    by_cases h : p.1 = k
    · simp [h]
    · simp [h, ih]

theorem getAttr_upsertRecord (existing : Obj) (id : String) (attrs : Obj) (k : String) :
    getAttr (upsertRecord existing id attrs) k =
      Option.or (getAttr attrs k)
        (if k = "id" then some (Val.str id) else getAttr existing k) := by
  simp only [upsertRecord, getAttr]
  rw [lookupKey_append, lookupKey_cons]
  by_cases h : k = "id"
  · rw [if_pos (show "id" = k from h.symm), if_pos h]
  · rw [if_neg (show ¬ "id" = k from fun hh => h hh.symm), if_neg h]

theorem lookupKey_objInsert_self {β : Type} (m : List (String × β)) (k : String) (v : β) :
    lookupKey (objInsert m k v) k = some v := by
  induction m with
  | nil => simp [objInsert, lookupKey_cons]
  | cons p ps ih =>
    rw [objInsert]
    by_cases h : p.1 = k
    · rw [if_pos h, lookupKey_cons, if_pos rfl]
    · rw [if_neg h, lookupKey_cons, if_neg h]
      exact ih

theorem lookupKey_objInsert_ne {β : Type} (m : List (String × β)) (k j : String) (v : β)
    (hne : j ≠ k) : lookupKey (objInsert m k v) j = lookupKey m j := by
  induction m with
  | nil =>
    rw [show objInsert ([] : List (String × β)) k v = [(k, v)] from rfl, lookupKey_cons,
      if_neg (show ¬ (k, v).1 = j from fun hh => hne hh.symm), lookupKey_nil]
  | cons p ps ih =>
    rw [objInsert]
    by_cases h : p.1 = k
    · rw [if_pos h, lookupKey_cons, lookupKey_cons,
        if_neg (show ¬ (k, v).1 = j from fun hh => hne (hh.symm)),
        if_neg (show ¬ p.1 = j from fun hh => hne (hh ▸ h : j = k))]
    · rw [if_neg h, lookupKey_cons, lookupKey_cons]
      by_cases hp : p.1 = j
      · rw [if_pos hp, if_pos hp]
      · rw [if_neg hp, if_neg hp]
        exact ih

theorem keys_objInsert {β : Type} (m : List (String × β)) (k : String) (v : β) :
    (objInsert m k v).map (fun p => p.1) =
      if k ∈ m.map (fun p => p.1) then m.map (fun p => p.1)
      else m.map (fun p => p.1) ++ [k] := by
  induction m with
  | nil => simp [objInsert]
  | cons p ps ih =>
    rw [objInsert]
    by_cases h : p.1 = k
    · rw [if_pos h]
      have : k ∈ (p :: ps).map (fun p => p.1) := by simp [h.symm]
      rw [if_pos this]
      simp [h]
    · rw [if_neg h]
      by_cases hmem : k ∈ ps.map (fun q => q.1)
      · rw [if_pos (show k ∈ (p :: ps).map (fun q => q.1) from by simp [hmem]),
          List.map_cons, ih, if_pos hmem, List.map_cons]
      · rw [if_neg (show k ∉ (p :: ps).map (fun q => q.1) from by
            simp only [List.map_cons, List.mem_cons]
            rintro (h1 | h2)
            · exact h h1.symm
            · exact hmem h2),
          List.map_cons, ih, if_neg hmem, List.map_cons, List.cons_append]

theorem mem_keys_objInsert {β : Type} (m : List (String × β)) (k : String) (v : β) :
    k ∈ (objInsert m k v).map (fun p => p.1) := by
  rw [keys_objInsert]
  by_cases h : k ∈ m.map (fun p => p.1)
  · rwa [if_pos h]
  · rw [if_neg h]
    simp

theorem nodup_keys_objInsert {β : Type} (m : List (String × β)) (k : String) (v : β)
    (h : (m.map (fun p => p.1)).Nodup) :
    ((objInsert m k v).map (fun p => p.1)).Nodup := by
  rw [keys_objInsert]
  by_cases hmem : k ∈ m.map (fun p => p.1)
  · rwa [if_pos hmem]
  · rw [if_neg hmem]
    simp [List.nodup_append, h, hmem]

/-- C8 (amended): upserting merges the new attributes into the record for the
identifier (creating it if absent) without duplicating the entity; per field
the last write wins, and every previously set field absent from the new
attributes keeps its old value EXCEPT the reserved `id` field, which is
always rewritten to the entity's key. -/
theorem c8_upsert (st : GraphState) (id : String) (attrs : Obj) (embedding : Option Vec) :
    (∀ k : String,
        getAttr ((lookupKey (addNode st id attrs embedding).nodesMap id).getD []) k =
          Option.or (getAttr attrs k)
            (if k = "id" then some (Val.str id)
             else getAttr ((lookupKey st.nodesMap id).getD []) k)) ∧
      id ∈ (addNode st id attrs embedding).nodesMap.map (fun p => p.1) ∧
      ((st.nodesMap.map (fun p => p.1)).Nodup →
        ((addNode st id attrs embedding).nodesMap.map (fun p => p.1)).Nodup) ∧
      (∀ j : String, j ≠ id →
        lookupKey (addNode st id attrs embedding).nodesMap j = lookupKey st.nodesMap j) := by
  have hnm : (addNode st id attrs embedding).nodesMap =
      objInsert st.nodesMap id
        (upsertRecord ((lookupKey st.nodesMap id).getD []) id attrs) := rfl
  refine ⟨?_, ?_, ?_, ?_⟩
  · intro k
    rw [hnm, lookupKey_objInsert_self, Option.getD_some]
    exact getAttr_upsertRecord _ id attrs k
  · rw [hnm]
    exact mem_keys_objInsert _ _ _
  · intro h
    rw [hnm]
    exact nodup_keys_objInsert _ _ _ h
  · intro j hj
    rw [hnm]
    exact lookupKey_objInsert_ne _ _ _ _ hj

/-- C8 counterexample: on a store whose record at key "a" carries the
attribute `id = "b"`, upserting "a" with an EMPTY attribute object rewrites
that previously set `id` field to "a" — it does not keep its old value, so
the claim as stated (every previously set field not present in the new
attributes keeps its old value) is false at this input. -/
theorem c8_counterexample :
    getAttr ((lookupKey (addNode cState8 "a" [] none).nodesMap "a").getD []) "id"
        = some (Val.str "a") ∧
      getAttr ((lookupKey cState8.nodesMap "a").getD []) "id" = some (Val.str "b") := by
  decide

/-- C8 witness: a concrete upsert observed through the theorem. -/
theorem c8_upsert_witness :
    getAttr ((lookupKey (addNode emptyGraphState "a" [("title", Val.str "t")] none).nodesMap
        "a").getD []) "title" = some (Val.str "t") := by
  rw [(c8_upsert emptyGraphState "a" [("title", Val.str "t")] none).1 "title"]
  decide

/-! ### Metric engine lemmas -/

theorem bump_apply (ids : List String) (d : String → ℕ) (k id : String) (hid : id ∈ ids) :
    bump ids d k id = d id + (if k = id then 1 else 0) := by
  rw [bump]
  by_cases hk : k ∈ ids
  · rw [if_pos hk]
    by_cases hik : id = k
    · subst hik
      simp
    · have hki : ¬ k = id := fun hh => hik hh.symm
      simp [hik, hki]
  · rw [if_neg hk]
    have hki : ¬ k = id := fun h => hk (h ▸ hid)
    simp [hki]

theorem relCount_cons (e : Edge) (es : List Edge) (id : String) :
    relCount (e :: es) id =
      ((if e.source = id then 1 else 0) + (if e.target = id then 1 else 0))
        + relCount es id := by
  simp [relCount]

theorem degAfter_eq (ids : List String) (edges : List Edge) (id : String)
    (hid : id ∈ ids) : degAfter ids edges id = relCount edges id := by
  suffices h : ∀ d : String → ℕ,
      (edges.foldl (fun d e => bump ids (bump ids d e.source) e.target) d) id
        = d id + relCount edges id by
    simpa [degAfter] using h (fun _ => 0)
  induction edges with
  | nil =>
    intro d
    simp [relCount]
  | cons e es ih =>
    intro d
    rw [List.foldl_cons, ih, bump_apply ids _ e.target id hid,
      bump_apply ids d e.source id hid, relCount_cons]
    omega

theorem sum_map_add {α : Type} (l : List α) (f g : α → ℕ) :
    (l.map (fun x => f x + g x)).sum = (l.map f).sum + (l.map g).sum := by
  induction l with
  | nil => simp
  | cons x xs ih =>
    simp [ih]
    omega

theorem sum_if_count (ids : List String) (a : String) :
    ((ids.map (fun id => if a = id then 1 else 0)).sum : ℕ) = ids.count a := by
  induction ids with
  | nil => simp
  | cons i is ih =>
    rw [List.map_cons, List.sum_cons, ih, List.count_cons]
    by_cases h : a = i
    · simp [h]
      omega
    · have hia : ¬ i = a := fun hh => h hh.symm
      simp [h, hia]

theorem sum_relCount (ids : List String) (edges : List Edge)
    (hnd : ids.Nodup)
    (hend : ∀ e ∈ edges, e.source ∈ ids ∧ e.target ∈ ids) :
    (ids.map (relCount edges)).sum = 2 * edges.length := by
  induction edges with
  | nil =>
    have hz : ids.map (relCount []) = ids.map (fun _ => 0) := by
      refine List.map_congr_left ?_
      intro id _
      simp [relCount]
    rw [hz]
    simp
  | cons e es ih =>
    have h1 : ids.map (relCount (e :: es))
        = ids.map (fun id =>
            ((if e.source = id then 1 else 0) + (if e.target = id then 1 else 0))
              + relCount es id) := by
      refine List.map_congr_left ?_
      intro id _
      exact relCount_cons e es id
    rw [h1, sum_map_add, sum_map_add]
    obtain ⟨hs, ht⟩ := hend e (List.mem_cons_self e es)
    rw [sum_if_count, sum_if_count, List.count_eq_one_of_mem hnd hs,
      List.count_eq_one_of_mem hnd ht,
      ih (fun e2 he2 => hend e2 (List.mem_cons_of_mem _ he2))]
    simp [List.length_cons]
    omega

theorem lookupKey_map_self {β : Type} (ids : List String) (f : String → β) (id : String)
    (h : id ∈ ids) : lookupKey (ids.map (fun i => (i, f i))) id = some (f id) := by
  induction ids with
  | nil => simp at h
  | cons i is ih =>
    rw [List.map_cons, lookupKey_cons]
    by_cases hi : (i, f i).1 = id
    · rw [if_pos hi]
      simp only at hi
      rw [hi]
    · rw [if_neg hi]
      simp only at hi
      exact ih ((List.mem_cons.mp h).resolve_left (fun hh => hi hh.symm))

theorem lookupKey_metricsOf (nm : List (String × Obj)) (edges : List Edge) (id : String)
    (h : id ∈ nm.map (fun p => p.1)) :
    lookupKey (metricsOf nm edges) id = some
      ⟨(degAfter (nm.map (fun p => p.1)) edges id : ℚ)
          / max (((nm.map (fun p => p.1)).length : ℚ) - 1) 1,
        1 / 2 * baseRiskOf ((lookupKey nm id).getD [])
          + 1 / 2 * ((degAfter (nm.map (fun p => p.1)) edges id : ℚ)
              / max (((nm.map (fun p => p.1)).length : ℚ) - 1) 1)⟩ := by
  show lookupKey ((nm.map (fun p => p.1)).map (fun i =>
      (i, (⟨(degAfter (nm.map (fun p => p.1)) edges i : ℚ)
              / max (((nm.map (fun p => p.1)).length : ℚ) - 1) 1,
            1 / 2 * baseRiskOf ((lookupKey nm i).getD [])
              + 1 / 2 * ((degAfter (nm.map (fun p => p.1)) edges i : ℚ)
                  / max (((nm.map (fun p => p.1)).length : ℚ) - 1) 1)⟩ : MetricEntry))))
      id = _
  exact lookupKey_map_self (nm.map (fun p => p.1)) _ id h

/-- C7: for every entity id in the store, the computed degree equals the count
of relationships in which the id appears as source or target (a self-loop
counting twice), the snapshot's degree centrality equals
`degree / max(N - 1, 1)` with `N` the number of entities, and the divisor is
at least `1` (so no division by zero when `N ≤ 1`). -/
theorem c7_degree (nm : List (String × Obj)) (edges : List Edge) (id : String)
    (h : id ∈ nm.map (fun p => p.1)) :
    degAfter (nm.map (fun p => p.1)) edges id = relCount edges id ∧
      lookupKey (metricsOf nm edges) id = some
        ⟨(relCount edges id : ℚ) / max ((nm.length : ℚ) - 1) 1,
          1 / 2 * baseRiskOf ((lookupKey nm id).getD [])
            + 1 / 2 * ((relCount edges id : ℚ) / max ((nm.length : ℚ) - 1) 1)⟩ ∧
      (1 : ℚ) ≤ max ((nm.length : ℚ) - 1) 1 := by
  have hdeg := degAfter_eq (nm.map (fun p => p.1)) edges id h
  refine ⟨hdeg, ?_, le_max_right _ _⟩
  rw [lookupKey_metricsOf nm edges id h, hdeg, List.length_map]

/-- C7 witness: two entities, a self-loop on "a" plus one ordinary edge; the
degree of "a" is 3 (the self-loop counts twice) and its centrality is
`3 / max(2 - 1, 1) = 3`. -/
theorem c7_degree_witness :
    degAfter (cNodesLoop.map (fun p => p.1)) cEdgesLoop "a" = 3 ∧
      lookupKey (metricsOf cNodesLoop cEdgesLoop) "a" = some ⟨3, 33 / 20⟩ := by
  obtain ⟨h1, h2, _⟩ := c7_degree cNodesLoop cEdgesLoop "a" (by decide)
  refine ⟨h1.trans (by decide), h2.trans ?_⟩
  rw [show relCount cEdgesLoop "a" = 3 from by decide,
    show baseRiskOf ((lookupKey cNodesLoop "a").getD []) = 3 / 10 from by
      rw [show (lookupKey cNodesLoop "a").getD [] = [] from by decide,
        baseRiskOf, if_neg (by decide)]]
  norm_num [cNodesLoop]

/-- C2 (amended): every snapshot entry's risk score equals
`0.5 * baseRisk + 0.5 * degreeCentrality`; the value lies in `[0, 1]`
whenever both the base risk and the degree centrality lie in `[0, 1]`
(duplicate relationships can push the centrality, and hence the risk score,
above `1`). -/
theorem c2_risk (nm : List (String × Obj)) (edges : List Edge) (id : String)
    (h : id ∈ nm.map (fun p => p.1)) :
    ∃ m : MetricEntry, lookupKey (metricsOf nm edges) id = some m ∧
      m.risk_score = 1 / 2 * baseRiskOf ((lookupKey nm id).getD [])
        + 1 / 2 * m.degree_centrality ∧
      (0 ≤ baseRiskOf ((lookupKey nm id).getD []) →
        baseRiskOf ((lookupKey nm id).getD []) ≤ 1 →
        0 ≤ m.degree_centrality → m.degree_centrality ≤ 1 →
        0 ≤ m.risk_score ∧ m.risk_score ≤ 1) := by
  refine ⟨_, lookupKey_metricsOf nm edges id h, rfl, ?_⟩
  intro h0 h1 h2 h3
  constructor
  · simp only [MetricEntry.mk.injEq] at *
    linarith
  · simp only [MetricEntry.mk.injEq] at *
    linarith

/-- C2 counterexample: two entities joined by a duplicated relationship give
"a" degree 2 and centrality `2 / max(2 - 1, 1) = 2`, so its risk score is
`0.5 * 0.3 + 0.5 * 2 = 1.15 > 1`: the risk score does NOT always lie in
`[0, 1]`. -/
theorem c2_counterexample :
    lookupKey (metricsOf cNodesDup cEdgesDup) "a" = some ⟨2, 23 / 20⟩ ∧
      (1 : ℚ) < 23 / 20 := by
  refine ⟨(lookupKey_metricsOf cNodesDup cEdgesDup "a" (by decide)).trans ?_, by norm_num⟩
  rw [show degAfter (cNodesDup.map (fun p => p.1)) cEdgesDup "a" = 2 from by decide,
    show baseRiskOf ((lookupKey cNodesDup "a").getD []) = 3 / 10 from by
      rw [show (lookupKey cNodesDup "a").getD [] = [("type", Val.str "Paper")] from by decide,
        baseRiskOf, if_neg (by decide)]]
  norm_num [cNodesDup]

/-- C2 witness: with a single relationship both blend factors are in range
and the theorem yields a risk score inside `[0, 1]`. -/
theorem c2_risk_witness :
    ∃ m : MetricEntry, lookupKey (metricsOf cNodesDup cEdgesSimple) "a" = some m ∧
      0 ≤ m.risk_score ∧ m.risk_score ≤ 1 := by
  obtain ⟨m, hm, _, hb⟩ := c2_risk cNodesDup cEdgesSimple "a" (by decide)
  have hbase : baseRiskOf ((lookupKey cNodesDup "a").getD []) = 3 / 10 := by
    rw [show (lookupKey cNodesDup "a").getD [] = [("type", Val.str "Paper")] from by decide,
      baseRiskOf, if_neg (by decide)]
  have hconc : lookupKey (metricsOf cNodesDup cEdgesSimple) "a" = some ⟨1, 13 / 20⟩ := by
    refine (lookupKey_metricsOf cNodesDup cEdgesSimple "a" (by decide)).trans ?_
    rw [show degAfter (cNodesDup.map (fun p => p.1)) cEdgesSimple "a" = 1 from by decide,
      hbase]
    norm_num [cNodesDup]
  have hm2 : m = ⟨1, 13 / 20⟩ := Option.some.inj (hm.symm.trans hconc)
  subst hm2
  exact ⟨_, hm, hb (by rw [hbase]; norm_num) (by rw [hbase]; norm_num)
    (by norm_num) (by norm_num)⟩

/-- C3 (amended): provided every relationship endpoint is an identifier of
the store (and the identifiers are distinct, as JavaScript object keys are),
the degrees summed over all entity identifiers equal twice the number of
relationships; a relationship with a dangling endpoint contributes only its
present endpoints, breaking the equality. -/
theorem c3_handshake (nm : List (String × Obj)) (edges : List Edge)
    (hnd : (nm.map (fun p => p.1)).Nodup)
    (hend : ∀ e ∈ edges,
      e.source ∈ nm.map (fun p => p.1) ∧ e.target ∈ nm.map (fun p => p.1)) :
    ((nm.map (fun p => p.1)).map (degAfter (nm.map (fun p => p.1)) edges)).sum
      = 2 * edges.length := by
  have h1 : (nm.map (fun p => p.1)).map (degAfter (nm.map (fun p => p.1)) edges)
      = (nm.map (fun p => p.1)).map (relCount edges) := by
    refine List.map_congr_left ?_
    intro id hid
    exact degAfter_eq _ edges id hid
  rw [h1]
  exact sum_relCount _ edges hnd hend

/-- C3 counterexample: a store holding only "a" with one relationship whose
target "b" is not an entity: the degree sum is 1, one short of
`2 * number_of_relationships = 2`, so the handshake identity fails for
arbitrary entity sets and relationship lists. -/
theorem c3_counterexample :
    ((cNodesDangling.map (fun p => p.1)).map
        (degAfter (cNodesDangling.map (fun p => p.1)) cEdgesDangling)).sum + 1
      = 2 * cEdgesDangling.length := by
  decide

/-- C3 witness: both endpoints present, degree sum `2 = 2 * 1`. -/
theorem c3_handshake_witness :
    ((cNodesDup.map (fun p => p.1)).map
        (degAfter (cNodesDup.map (fun p => p.1)) cEdgesSimple)).sum
      = 2 * cEdgesSimple.length :=
  c3_handshake cNodesDup cEdgesSimple (by decide) (by decide)

/-! ### Ingestion lemmas -/

theorem resetGraph_eq (st : GraphState) : resetGraph st = emptyGraphState :=
  rfl

theorem processRecords_nil {α : Type} (txt : α → String)
    (ap : GraphState → α → Vec → GraphState) (embed : String → Except String Vec)
    (s : GraphState) : processRecords txt ap embed s [] = (s, none) :=
  rfl

theorem processRecords_cons_ok {α : Type} (txt : α → String)
    (ap : GraphState → α → Vec → GraphState) (embed : String → Except String Vec)
    (s : GraphState) (r : α) (rs : List α) (v : Vec)
    (h : embed (txt r) = Except.ok v) :
    processRecords txt ap embed s (r :: rs)
      = processRecords txt ap embed (ap s r v) rs := by
  rw [processRecords, h]

theorem processRecords_cons_err {α : Type} (txt : α → String)
    (ap : GraphState → α → Vec → GraphState) (embed : String → Except String Vec)
    (s : GraphState) (r : α) (rs : List α) (err : String)
    (h : embed (txt r) = Except.error err) :
    processRecords txt ap embed s (r :: rs) = (s, some err) := by
  rw [processRecords, h]

theorem processRecords_ok {α : Type} (txt : α → String)
    (ap : GraphState → α → Vec → GraphState) (embed : String → Except String Vec)
    (rs : List α) (hok : ∀ r ∈ rs, (embed (txt r)).isOk = true) :
    ∀ s : GraphState, (processRecords txt ap embed s rs).2 = none := by
  induction rs with
  | nil =>
    intro s
    rfl
  | cons r rs ih =>
    intro s
    cases hr : embed (txt r) with
    | error e =>
      have h := hok r (List.mem_cons_self r rs)
      rw [hr] at h
      simp [Except.isOk, Except.toBool] at h
    | ok v =>
      rw [processRecords_cons_ok _ _ _ _ _ _ _ hr]
      exact ih (fun q hq => hok q (List.mem_cons_of_mem _ hq)) (ap s r v)

theorem processRecords_abort {α : Type} (txt : α → String)
    (ap : GraphState → α → Vec → GraphState) (embed : String → Except String Vec)
    (rs1 : List α) (r : α) (rs2 : List α) (err : String)
    (hok : ∀ q ∈ rs1, (embed (txt q)).isOk = true)
    (hfail : embed (txt r) = Except.error err) :
    ∀ s : GraphState, processRecords txt ap embed s (rs1 ++ r :: rs2)
      = ((processRecords txt ap embed s rs1).1, some err) := by
  induction rs1 with
  | nil =>
    intro s
    rw [List.nil_append, processRecords_cons_err _ _ _ _ _ _ _ hfail, processRecords_nil]
  | cons q qs ih =>
    intro s
    cases hr : embed (txt q) with
    | error e =>
      have h := hok q (List.mem_cons_self q qs)
      rw [hr] at h
      simp [Except.isOk, Except.toBool] at h
    | ok v =>
      rw [List.cons_append, processRecords_cons_ok _ _ _ _ _ _ _ hr,
        processRecords_cons_ok _ _ _ _ _ _ _ hr]
      exact ih (fun x hx => hok x (List.mem_cons_of_mem _ hx)) (ap s q v)

/-- C10: every call of the exposed ingest operation first clears the entity
map, the relationship list, the embedding map and the derived selection /
answer state (`resetGraph` inside `ingestAll`), so the outcome is independent
of the prior store state, and repeating the ingest call on identical input
reproduces the state of the first call exactly — in particular no duplicate
relationships accumulate through this entry point. -/
theorem c10_ingest_resets (st : GraphState) (papers : List Paper) (events : List Event)
    (policies : List Policy) (embed : String → Except String Vec) :
    resetGraph st = emptyGraphState ∧
      ingestAll st papers events policies embed
        = ingestAll emptyGraphState papers events policies embed ∧
      ingestAll (ingestAll st papers events policies embed).1 papers events policies embed
        = ingestAll st papers events policies embed :=
  ⟨rfl, rfl, rfl⟩

/-- C10 witness: a concrete ingest from a dirty state equals the ingest from
the empty state. -/
theorem c10_ingest_resets_witness :
    ingestAll cState8 [cPaper] [cEvent] [cPolicy] embOk1
      = ingestAll emptyGraphState [cPaper] [cEvent] [cPolicy] embOk1 :=
  (c10_ingest_resets cState8 [cPaper] [cEvent] [cPolicy] embOk1).2.1

/-- C6: during ingestion the first failure of the injected embedding function
aborts every remaining step (the rest of the failing phase, all later phases
and the derived-link pass), and the returned store is exactly the state built
from the records processed before the failure — no rollback of the entity,
embedding or relationship mutations already applied.  The three conjuncts
cover a first failure in the papers, events and policies phase respectively. -/
theorem c6_fail_fast (st : GraphState) (embed : String → Except String Vec) (err : String) :
    (∀ (ps1 : List Paper) (p : Paper) (ps2 : List Paper)
        (evs : List Event) (pls : List Policy),
        (∀ q ∈ ps1, (embed (paperText q)).isOk = true) →
        embed (paperText p) = Except.error err →
        ingestAll st (ps1 ++ p :: ps2) evs pls embed
          = ((processRecords paperText applyPaper embed emptyGraphState ps1).1, some err)) ∧
      (∀ (ps : List Paper) (evs1 : List Event) (ev : Event) (evs2 : List Event)
          (pls : List Policy),
        (∀ q ∈ ps, (embed (paperText q)).isOk = true) →
        (∀ q ∈ evs1, (embed (eventText q)).isOk = true) →
        embed (eventText ev) = Except.error err →
        ingestAll st ps (evs1 ++ ev :: evs2) pls embed
          = ((processRecords eventText applyEvent embed
                (processRecords paperText applyPaper embed emptyGraphState ps).1 evs1).1,
              some err)) ∧
      (∀ (ps : List Paper) (evs : List Event) (pls1 : List Policy) (pl : Policy)
          (pls2 : List Policy),
        (∀ q ∈ ps, (embed (paperText q)).isOk = true) →
        (∀ q ∈ evs, (embed (eventText q)).isOk = true) →
        (∀ q ∈ pls1, (embed (policyText q)).isOk = true) →
        embed (policyText pl) = Except.error err →
        ingestAll st ps evs (pls1 ++ pl :: pls2) embed
          = ((processRecords policyText applyPolicy embed
                (processRecords eventText applyEvent embed
                  (processRecords paperText applyPaper embed emptyGraphState ps).1 evs).1
                pls1).1,
              some err)) := by
  refine ⟨?_, ?_, ?_⟩
  · intro ps1 p ps2 evs pls hok hfail
    have habort := processRecords_abort paperText applyPaper embed ps1 p ps2 err
      hok hfail emptyGraphState
    show (match processRecords paperText applyPaper embed emptyGraphState (ps1 ++ p :: ps2) with
      | (s1, some e) => (s1, some e)
      | (s1, none) =>
        match processRecords eventText applyEvent embed s1 evs with
        | (s2, some e) => (s2, some e)
        | (s2, none) =>
          match processRecords policyText applyPolicy embed s2 pls with
          | (s3, some e) => (s3, some e)
          | (s3, none) => (deriveLinks s3 (ps1 ++ p :: ps2) evs, none)) = _
    rw [habort]
  · intro ps evs1 ev evs2 pls hokP hokE hfail
    rcases hps : processRecords paperText applyPaper embed emptyGraphState ps with ⟨s1, x1⟩
    have hx1 : x1 = none := by
      have := processRecords_ok paperText applyPaper embed ps hokP emptyGraphState
      rw [hps] at this
      exact this
    subst hx1
    have habort := processRecords_abort eventText applyEvent embed evs1 ev evs2 err
      hokE hfail s1
    have h1 : ingestAll st ps (evs1 ++ ev :: evs2) pls embed
        = (match processRecords eventText applyEvent embed s1 (evs1 ++ ev :: evs2) with
           | (s2, some e) => (s2, some e)
           | (s2, none) =>
             match processRecords policyText applyPolicy embed s2 pls with
             | (s3, some e) => (s3, some e)
             | (s3, none) => (deriveLinks s3 ps (evs1 ++ ev :: evs2), none)) := by
      show (match processRecords paperText applyPaper embed emptyGraphState ps with
        | (s1, some e) => (s1, some e)
        | (s1, none) =>
          match processRecords eventText applyEvent embed s1 (evs1 ++ ev :: evs2) with
          | (s2, some e) => (s2, some e)
          | (s2, none) =>
            match processRecords policyText applyPolicy embed s2 pls with
            | (s3, some e) => (s3, some e)
            | (s3, none) => (deriveLinks s3 ps (evs1 ++ ev :: evs2), none)) = _
      rw [hps]
    rw [h1, habort]
  · intro ps evs pls1 pl pls2 hokP hokE hokL hfail
    rcases hps : processRecords paperText applyPaper embed emptyGraphState ps with ⟨s1, x1⟩
    have hx1 : x1 = none := by
      have := processRecords_ok paperText applyPaper embed ps hokP emptyGraphState
      rw [hps] at this
      exact this
    subst hx1
    rcases hev : processRecords eventText applyEvent embed s1 evs with ⟨s2, x2⟩
    have hx2 : x2 = none := by
      have := processRecords_ok eventText applyEvent embed evs hokE s1
      rw [hev] at this
      exact this
    subst hx2
    have habort := processRecords_abort policyText applyPolicy embed pls1 pl pls2 err
      hokL hfail s2
    have h1a : ingestAll st ps evs (pls1 ++ pl :: pls2) embed
        = (match processRecords eventText applyEvent embed s1 evs with
           | (s2, some e) => (s2, some e)
           | (s2, none) =>
             match processRecords policyText applyPolicy embed s2 (pls1 ++ pl :: pls2) with
             | (s3, some e) => (s3, some e)
             | (s3, none) => (deriveLinks s3 ps evs, none)) := by
      show (match processRecords paperText applyPaper embed emptyGraphState ps with
        | (s1, some e) => (s1, some e)
        | (s1, none) =>
          match processRecords eventText applyEvent embed s1 evs with
          | (s2, some e) => (s2, some e)
          | (s2, none) =>
            match processRecords policyText applyPolicy embed s2 (pls1 ++ pl :: pls2) with
            | (s3, some e) => (s3, some e)
            | (s3, none) => (deriveLinks s3 ps evs, none)) = _
      rw [hps]
    have h1 : ingestAll st ps evs (pls1 ++ pl :: pls2) embed
        = (match processRecords policyText applyPolicy embed s2 (pls1 ++ pl :: pls2) with
           | (s3, some e) => (s3, some e)
           | (s3, none) => (deriveLinks s3 ps evs, none)) := by
      rw [h1a, hev]
    rw [h1, habort]

/-- C6 witness: with a provider failing exactly on the event text, ingesting
one paper, the failing event and one policy stops right after the papers
phase and returns the papers-phase state with the error. -/
theorem c6_fail_fast_witness :
    ingestAll emptyGraphState [cPaper] [cEvent] [cPolicy] embFailEvent
      = ((processRecords paperText applyPaper embFailEvent emptyGraphState [cPaper]).1,
          some "boom") :=
  (c6_fail_fast emptyGraphState embFailEvent "boom").2.1 [cPaper] [] cEvent [] [cPolicy]
    (by decide) (by intro q hq; simp at hq) (by rfl)

/-! ### Embedding-independence of the ingested graph -/

/-- Two states agree on the graph part read by the metric engine. -/
def agree (s1 s2 : GraphState) : Prop :=
  s1.nodesMap = s2.nodesMap ∧ s1.edges = s2.edges

theorem agree_addNode (s1 s2 : GraphState) (h : agree s1 s2) (id : String)
    (attrs : Obj) (v1 v2 : Option Vec) :
    agree (addNode s1 id attrs v1) (addNode s2 id attrs v2) := by
  obtain ⟨hn, he⟩ := h
  constructor
  · show objInsert s1.nodesMap id (upsertRecord ((lookupKey s1.nodesMap id).getD []) id attrs)
      = objInsert s2.nodesMap id (upsertRecord ((lookupKey s2.nodesMap id).getD []) id attrs)
    rw [hn]
  · exact he

theorem agree_addEdge (s1 s2 : GraphState) (h : agree s1 s2) (a b r : String) :
    agree (addEdge s1 a b r) (addEdge s2 a b r) := by
  refine ⟨h.1, ?_⟩
  show s1.edges ++ [⟨a, b, r⟩] = s2.edges ++ [⟨a, b, r⟩]
  rw [h.2]

theorem agree_applyPaper (s1 s2 : GraphState) (h : agree s1 s2) (p : Paper)
    (v1 v2 : Vec) : agree (applyPaper s1 p v1) (applyPaper s2 p v2) :=
  agree_addNode s1 s2 h _ _ _ _

theorem agree_applyEvent (s1 s2 : GraphState) (h : agree s1 s2) (e : Event)
    (v1 v2 : Vec) : agree (applyEvent s1 e v1) (applyEvent s2 e v2) := by
  simp only [applyEvent]
  by_cases hr : e.region = ""
  · simp only [if_pos hr]
    exact agree_addNode s1 s2 h _ _ _ _
  · simp only [if_neg hr]
    exact agree_addEdge _ _ (agree_addNode _ _ (agree_addNode s1 s2 h _ _ _ _) _ _ _ _) _ _ _

theorem agree_applyPolicy (s1 s2 : GraphState) (h : agree s1 s2) (p : Policy)
    (v1 v2 : Vec) : agree (applyPolicy s1 p v1) (applyPolicy s2 p v2) := by
  simp only [applyPolicy]
  by_cases hr : p.jurisdiction = ""
  · simp only [if_pos hr]
    exact agree_addNode s1 s2 h _ _ _ _
  · simp only [if_neg hr]
    exact agree_addEdge _ _ (agree_addNode _ _ (agree_addNode s1 s2 h _ _ _ _) _ _ _ _) _ _ _

theorem processRecords_agree {α : Type} (txt : α → String)
    (ap : GraphState → α → Vec → GraphState)
    (hap : ∀ s1 s2 r (v1 v2 : Vec), agree s1 s2 → agree (ap s1 r v1) (ap s2 r v2))
    (e1 e2 : String → Except String Vec) (rs : List α) :
    ∀ s1 s2, agree s1 s2 →
      (processRecords txt ap e1 s1 rs).2 = none →
      (processRecords txt ap e2 s2 rs).2 = none →
      agree (processRecords txt ap e1 s1 rs).1 (processRecords txt ap e2 s2 rs).1 := by
  induction rs with
  | nil =>
    intro s1 s2 h _ _
    exact h
  | cons r rs ih =>
    intro s1 s2 h h1 h2
    cases hr1 : e1 (txt r) with
    | error e =>
      rw [processRecords_cons_err _ _ _ _ _ _ _ hr1] at h1
      simp at h1
    | ok v1 =>
      cases hr2 : e2 (txt r) with
      | error e =>
        rw [processRecords_cons_err _ _ _ _ _ _ _ hr2] at h2
        simp at h2
      | ok v2 =>
        rw [processRecords_cons_ok _ _ _ _ _ _ _ hr1] at h1 ⊢
        rw [processRecords_cons_ok _ _ _ _ _ _ _ hr2] at h2 ⊢
        exact ih _ _ (hap _ _ _ _ _ h) h1 h2

theorem foldl_agree {α : Type} (f : GraphState → α → GraphState)
    (hf : ∀ s1 s2 a, agree s1 s2 → agree (f s1 a) (f s2 a)) (l : List α) :
    ∀ s1 s2, agree s1 s2 → agree (l.foldl f s1) (l.foldl f s2) := by
  induction l with
  | nil =>
    intro s1 s2 h
    exact h
  | cons x xs ih =>
    intro s1 s2 h
    rw [List.foldl_cons, List.foldl_cons]
    exact ih _ _ (hf _ _ _ h)

theorem agree_deriveLinks (papers : List Paper) (events : List Event) :
    ∀ s1 s2, agree s1 s2 →
      agree (deriveLinks s1 papers events) (deriveLinks s2 papers events) := by
  intro s1 s2 h
  refine foldl_agree _ ?_ papers s1 s2 h
  intro t1 t2 p hp
  refine foldl_agree _ ?_ events t1 t2 hp
  intro u1 u2 e hu
  by_cases hc : (containsSub (lowerStr p.title) "blackout"
      && containsSub (lowerStr e.description) "outage") = true
  · simp only [hc, if_true]
    exact agree_addEdge _ _ hu _ _ _
  · simp only [Bool.not_eq_true] at hc
    simp only [hc, if_false]
    exact hu

theorem ingestAll_success_split (st : GraphState) (papers : List Paper)
    (events : List Event) (policies : List Policy) (embed : String → Except String Vec)
    (h : (ingestAll st papers events policies embed).2 = none) :
    ∃ s1 s2 s3 : GraphState,
      processRecords paperText applyPaper embed emptyGraphState papers = (s1, none)
        ∧ processRecords eventText applyEvent embed s1 events = (s2, none)
        ∧ processRecords policyText applyPolicy embed s2 policies = (s3, none)
        ∧ (ingestAll st papers events policies embed).1 = deriveLinks s3 papers events := by
  rcases hps : processRecords paperText applyPaper embed emptyGraphState papers with ⟨s1, x1⟩
  cases x1 with
  | some e =>
    exfalso
    have hred : ingestAll st papers events policies embed = (s1, some e) := by
      show (match processRecords paperText applyPaper embed emptyGraphState papers with
        | (a, some e2) => (a, some e2)
        | (a, none) =>
          match processRecords eventText applyEvent embed a events with
          | (b, some e2) => (b, some e2)
          | (b, none) =>
            match processRecords policyText applyPolicy embed b policies with
            | (c, some e2) => (c, some e2)
            | (c, none) => (deriveLinks c papers events, none)) = (s1, some e)
      rw [hps]
    rw [hred] at h
    simp at h
  | none =>
    have h1 : ingestAll st papers events policies embed
        = (match processRecords eventText applyEvent embed s1 events with
           | (b, some e2) => (b, some e2)
           | (b, none) =>
             match processRecords policyText applyPolicy embed b policies with
             | (c, some e2) => (c, some e2)
             | (c, none) => (deriveLinks c papers events, none)) := by
      show (match processRecords paperText applyPaper embed emptyGraphState papers with
        | (a, some e2) => (a, some e2)
        | (a, none) =>
          match processRecords eventText applyEvent embed a events with
          | (b, some e2) => (b, some e2)
          | (b, none) =>
            match processRecords policyText applyPolicy embed b policies with
            | (c, some e2) => (c, some e2)
            | (c, none) => (deriveLinks c papers events, none)) = _
      rw [hps]
    rcases hev : processRecords eventText applyEvent embed s1 events with ⟨s2, x2⟩
    cases x2 with
    | some e =>
      exfalso
      rw [h1, hev] at h
      simp at h
    | none =>
      have h2 : ingestAll st papers events policies embed
          = (match processRecords policyText applyPolicy embed s2 policies with
             | (c, some e2) => (c, some e2)
             | (c, none) => (deriveLinks c papers events, none)) := by
        rw [h1, hev]
      rcases hpl : processRecords policyText applyPolicy embed s2 policies with ⟨s3, x3⟩
      cases x3 with
      | some e =>
        exfalso
        rw [h2, hpl] at h
        simp at h
      | none =>
        refine ⟨s1, s2, s3, rfl, hev, hpl, ?_⟩
        rw [h2, hpl]

/-- C5 (amended): after the reset that ingestion itself performs, re-running
ingestion on identical input yields identical entity attributes and identical
metric snapshots — for ANY pair of embedding providers under which both runs
succeed, since the embeddings influence only the embedding index; and
re-running WITHOUT an explicit reset between runs appends nothing: the
relationship list of the second run equals that of the first, because
`ingestAll` begins by clearing the store. -/
theorem c5_idempotent (papers : List Paper) (events : List Event)
    (policies : List Policy) (e1 e2 : String → Except String Vec)
    (st1 st2 : GraphState)
    (h1 : (ingestAll st1 papers events policies e1).2 = none)
    (h2 : (ingestAll st2 papers events policies e2).2 = none) :
    (ingestAll st1 papers events policies e1).1.nodesMap
        = (ingestAll st2 papers events policies e2).1.nodesMap ∧
      (ingestAll st1 papers events policies e1).1.edges
        = (ingestAll st2 papers events policies e2).1.edges ∧
      metricsOf (ingestAll st1 papers events policies e1).1.nodesMap
          (ingestAll st1 papers events policies e1).1.edges
        = metricsOf (ingestAll st2 papers events policies e2).1.nodesMap
            (ingestAll st2 papers events policies e2).1.edges ∧
      ingestAll (ingestAll st1 papers events policies e1).1 papers events policies e1
        = ingestAll st1 papers events policies e1 := by
  obtain ⟨a1, b1, c1, hp1, he1, hl1, hf1⟩ :=
    ingestAll_success_split st1 papers events policies e1 h1
  obtain ⟨a2, b2, c2, hp2, he2, hl2, hf2⟩ :=
    ingestAll_success_split st2 papers events policies e2 h2
  have hagA : agree a1 a2 := by
    have hh := processRecords_agree paperText applyPaper
      (fun u1 u2 r v1 v2 hu => agree_applyPaper u1 u2 hu r v1 v2) e1 e2 papers
      emptyGraphState emptyGraphState ⟨rfl, rfl⟩ (by rw [hp1]) (by rw [hp2])
    rw [hp1, hp2] at hh
    exact hh
  have hagB : agree b1 b2 := by
    have hh := processRecords_agree eventText applyEvent
      (fun u1 u2 r v1 v2 hu => agree_applyEvent u1 u2 hu r v1 v2) e1 e2 events
      a1 a2 hagA (by rw [he1]) (by rw [he2])
    rw [he1, he2] at hh
    exact hh
  have hagC : agree c1 c2 := by
    have hh := processRecords_agree policyText applyPolicy
      (fun u1 u2 r v1 v2 hu => agree_applyPolicy u1 u2 hu r v1 v2) e1 e2 policies
      b1 b2 hagB (by rw [hl1]) (by rw [hl2])
    rw [hl1, hl2] at hh
    exact hh
  have hfin : agree (deriveLinks c1 papers events) (deriveLinks c2 papers events) :=
    agree_deriveLinks papers events c1 c2 hagC
  refine ⟨?_, ?_, ?_, rfl⟩
  · rw [hf1, hf2]
    exact hfin.1
  · rw [hf1, hf2]
    exact hfin.2
  · rw [hf1, hf2, hfin.1, hfin.2]

/-- C5 counterexample: re-running ingestion WITHOUT an intervening `reset()`
does NOT append duplicate derived relationships: the second run's
relationship list equals the first run's (here three relationships, among
them the derived `MENTIONS_EVENT` link), because ingestion clears the store
itself.  This refutes the claim's "re-running appends duplicate derived
relationships to the relationship list". -/
theorem c5_counterexample :
    (ingestAll (ingestAll emptyGraphState [cPaper] [cEvent] [cPolicy] embOk1).1
        [cPaper] [cEvent] [cPolicy] embOk1).1.edges
      = (ingestAll emptyGraphState [cPaper] [cEvent] [cPolicy] embOk1).1.edges ∧
    (ingestAll emptyGraphState [cPaper] [cEvent] [cPolicy] embOk1).1.edges
      = [⟨"event:e1", "location:X", "OCCURS_IN"⟩,
         ⟨"policy:q1", "location:J", "APPLIES_TO"⟩,
         ⟨"paper:p1", "event:e1", "MENTIONS_EVENT"⟩] := by
  exact ⟨rfl, by rfl⟩

/-- C5 witness: two successful runs from different prior states and different
embedding providers produce the same entity map and relationship list. -/
theorem c5_idempotent_witness :
    (ingestAll emptyGraphState [cPaper] [cEvent] [cPolicy] embOk1).1.nodesMap
        = (ingestAll cState8 [cPaper] [cEvent] [cPolicy] embOk2).1.nodesMap ∧
      (ingestAll emptyGraphState [cPaper] [cEvent] [cPolicy] embOk1).1.edges
        = (ingestAll cState8 [cPaper] [cEvent] [cPolicy] embOk2).1.edges := by
  obtain ⟨hn, he, _, _⟩ := c5_idempotent [cPaper] [cEvent] [cPolicy] embOk1 embOk2
    emptyGraphState cState8 rfl rfl
  exact ⟨hn, he⟩

/-! ### Top-k retrieval lemmas -/

theorem length_sortScoredDesc (l : List (String × ℝ)) :
    (sortScoredDesc l).length = l.length :=
  (List.perm_insertionSort scoreRel l).length_eq

theorem sorted_sortScoredDesc (l : List (String × ℝ)) :
    (sortScoredDesc l).Pairwise scoreRel :=
  List.sorted_insertionSort scoreRel l

theorem filter_orderedInsert (x : String × ℝ) (l : List (String × ℝ)) (s : ℝ) :
    (List.orderedInsert scoreRel x l).filter (fun p => decide (p.2 = s))
      = (x :: l).filter (fun p => decide (p.2 = s)) := by
  induction l with
  | nil => rfl
  | cons y ys ih =>
    rw [List.orderedInsert]
    by_cases h : scoreRel x y
    · rw [if_pos h]
    · rw [if_neg h]
      have hlt : x.2 < y.2 := lt_of_not_le h
      by_cases hs : y.2 = s
      · have hxs : ¬ x.2 = s := by
          rw [← hs]
          exact ne_of_lt hlt
        simp only [List.filter_cons, ih]
        simp [hs, hxs]
      · simp only [List.filter_cons, ih]
        simp [hs]

theorem filter_sortScoredDesc (l : List (String × ℝ)) (s : ℝ) :
    (sortScoredDesc l).filter (fun p => decide (p.2 = s))
      = l.filter (fun p => decide (p.2 = s)) := by
  induction l with
  | nil => rfl
  | cons x xs ih =>
    have h1 : sortScoredDesc (x :: xs) = List.orderedInsert scoreRel x (sortScoredDesc xs) :=
      rfl
    rw [h1, filter_orderedInsert, List.filter_cons, List.filter_cons, ih]

theorem pairwise_filterMap_ctx (nm : List (String × Obj)) (l : List (String × ℝ))
    (h : l.Pairwise scoreRel) :
    (l.filterMap (fun s => (lookupKey nm s.1).map (fun n => (⟨n, s.2⟩ : Ctx)))).Pairwise
      (fun a b => b.similarity ≤ a.similarity) := by
  induction l with
  | nil => simp
  | cons x xs ih =>
    obtain ⟨hx, hxs⟩ := List.pairwise_cons.mp h
    cases hk : lookupKey nm x.1 with
    | none =>
      rw [List.filterMap_cons]
      simp only [hk, Option.map_none]
      exact ih hxs
    | some n =>
      rw [List.filterMap_cons]
      simp only [hk, Option.map_some]
      refine List.pairwise_cons.mpr ⟨?_, ih hxs⟩
      intro c hc
      obtain ⟨y, hy, hgy⟩ := List.mem_filterMap.mp hc
      obtain ⟨m, _, hcm⟩ := Option.map_eq_some'.mp hgy
      have : c.similarity = y.2 := by
        rw [← hcm]
      rw [this]
      exact hx y hy

/-- C4: top-k retrieval keeps at most `min k indexSize` scored pairs; the kept
prefix is sorted by non-increasing similarity; ties are broken by insertion
order (the stable sort leaves entries of any fixed score in their original
index order); the returned contexts of `searchGraph` obey the same length
bound and ordering; and on an empty index `searchGraph` returns an empty
result without error and without calling the embedding provider. -/
theorem c4_topk (st : GraphState) (q : Vec) (k : ℕ) :
    ((sortScoredDesc (scoredOf st q)).take k).length ≤ min k st.embeddings.length ∧
      ((sortScoredDesc (scoredOf st q)).take k).Pairwise (fun a b => b.2 ≤ a.2) ∧
      (∀ s : ℝ, (sortScoredDesc (scoredOf st q)).filter (fun p => decide (p.2 = s))
          = (scoredOf st q).filter (fun p => decide (p.2 = s))) ∧
      (∀ (query : String) (embed : String → Except String Vec)
          (ctxs : List Ctx) (tr : List CallEv),
        searchGraph st query k embed = (Except.ok ctxs, tr) →
          ctxs.length ≤ min k st.embeddings.length ∧
            ctxs.Pairwise (fun a b => b.similarity ≤ a.similarity)) ∧
      (st.embeddings = [] → ∀ (query : String) (embed : String → Except String Vec),
        searchGraph st query k embed = (Except.ok [], [])) := by
  have hlen : ∀ qv : Vec, ((sortScoredDesc (scoredOf st qv)).take k).length
      ≤ min k st.embeddings.length := by
    intro qv
    rw [List.length_take, length_sortScoredDesc]
    have : (scoredOf st qv).length = st.embeddings.length := List.length_map _ _
    rw [this]
  have hsorted : ∀ qv : Vec,
      ((sortScoredDesc (scoredOf st qv)).take k).Pairwise scoreRel := fun qv =>
    List.Pairwise.sublist (List.take_sublist k _) (sorted_sortScoredDesc _)
  refine ⟨hlen q, hsorted q, fun s => filter_sortScoredDesc _ s, ?_, ?_⟩
  · intro query embed ctxs tr hsg
    by_cases hemp : st.embeddings.isEmpty
    · rw [searchGraph, if_pos hemp] at hsg
      have hctxs : ctxs = [] := by
        have := congrArg Prod.fst hsg
        simpa using this.symm
      subst hctxs
      simp
    · rw [searchGraph, if_neg hemp] at hsg
      cases hq : embed query with
      | error e =>
        rw [hq] at hsg
        exact absurd (congrArg Prod.fst hsg) (by simp)
      | ok qv =>
        rw [hq] at hsg
        have hctxs : ctxs = ((sortScoredDesc (scoredOf st qv)).take k).filterMap
            (fun s => (lookupKey st.nodesMap s.1).map (fun n => (⟨n, s.2⟩ : Ctx))) := by
          have := congrArg Prod.fst hsg
          simpa using this.symm
        subst hctxs
        constructor
        · exact le_trans (List.length_filterMap_le _ _) (hlen qv)
        · exact pairwise_filterMap_ctx st.nodesMap _ (hsorted qv)
  · intro hemb query embed
    rw [searchGraph, if_pos (by rw [hemb]; rfl)]

/-- C4 witness: on the empty index the retrieval returns an empty sequence
with no provider call, even under an always-failing embedding provider. -/
theorem c4_topk_witness :
    searchGraph emptyGraphState "q" 8 embNever = (Except.ok [], []) :=
  (c4_topk emptyGraphState [] 8).2.2.2.2 rfl "q" embNever

/-! ### RAG orchestration on an empty index -/

theorem submitRag_empty_reduce (st : GraphState) (query : String)
    (embed : String → Except String Vec) (generate : String → Except String String)
    (h1 : st.embeddings = []) (h2 : ¬ trimStr query = "") :
    submitRagQuery st query embed generate
      = (match generate (ragPrompt query []) with
         | Except.error _ =>
           ({ st with ragContexts := [], ragAnswer := "Failed to run RAG over the graph." },
            [CallEv.generateCall (ragPrompt query [])])
         | Except.ok text =>
           ({ st with ragContexts := [], ragAnswer := text },
            [CallEv.generateCall (ragPrompt query [])])) := by
  have hc : ({ st with ragAnswer := "", ragContexts := [] }).embeddings.isEmpty = true := by
    show st.embeddings.isEmpty = true
    rw [h1]
    rfl
  have hse : searchGraph { st with ragAnswer := "", ragContexts := [] } query 8 embed
      = (Except.ok [], []) := by
    rw [searchGraph, if_pos hc]
  simp only [submitRagQuery, if_neg h2]
  rw [hse]
  rfl

/-- C1 (amended): when the embedding index is empty (and the question is not
blank), answering returns an empty context list and never invokes the
embedding provider — but the text-generation provider IS still invoked,
exactly once, on the prompt built from the empty context block. -/
theorem c1_empty_index (st : GraphState) (query : String)
    (embed : String → Except String Vec) (generate : String → Except String String)
    (h1 : st.embeddings = []) (h2 : ¬ trimStr query = "") :
    (submitRagQuery st query embed generate).1.ragContexts = [] ∧
      (submitRagQuery st query embed generate).2.countP CallEv.isEmbed = 0 ∧
      (submitRagQuery st query embed generate).2.countP CallEv.isGenerate = 1 := by
  rw [submitRag_empty_reduce st query embed generate h1 h2]
  cases generate (ragPrompt query []) with
  | error e => simp [List.countP_cons, CallEv.isEmbed, CallEv.isGenerate]
  | ok text => simp [List.countP_cons, CallEv.isEmbed, CallEv.isGenerate]

/-- C1 counterexample: on the empty graph, `submitRagQuery` with the question
"any question" returns an empty context list but its provider trace consists
of exactly one call, and that call is to the text-generation provider — so
the claim that NEITHER `embed` nor `generate` is invoked is false at this
input. -/
theorem c1_counterexample :
    (submitRagQuery emptyGraphState "any question" embNever genOk).1.ragContexts = [] ∧
      (submitRagQuery emptyGraphState "any question" embNever genOk).2.length = 1 ∧
      (submitRagQuery emptyGraphState "any question" embNever genOk).2.countP
        CallEv.isGenerate = 1 := by
  rw [submitRag_empty_reduce emptyGraphState "any question" embNever genOk rfl (by decide)]
  rw [show genOk (ragPrompt "any question" []) = Except.ok "answer" from rfl]
  simp [List.countP_cons, CallEv.isGenerate]

/-- C1 witness: the amended theorem applied to the empty store with a
succeeding generation provider. -/
theorem c1_empty_index_witness :
    (submitRagQuery emptyGraphState "any question" embOk1 genOk).1.ragContexts = [] ∧
      (submitRagQuery emptyGraphState "any question" embOk1 genOk).2.countP
          CallEv.isEmbed = 0 ∧
      (submitRagQuery emptyGraphState "any question" embOk1 genOk).2.countP
          CallEv.isGenerate = 1 :=
  c1_empty_index emptyGraphState "any question" embOk1 genOk rfl (by decide)

end EnergyGraph
